import Mathlib

/-!
Evaluation Engine — shallow embedding.

A shallow embedding of the Evaluation Engine (filter pipeline, selection
policy, grid allocator, session state machine, persistence adapter) of the
Haystack deployment, together with theorems checking the natural-language
specification against the code.

Modelling conventions:

* JS `Map` is modelled as an insertion-ordered association list with
  `mapSet` (replace-in-place when the key is present, append otherwise),
  `mapHas`, `mapGet`, `mapDelete`; JS `Set` as an insertion-ordered list
  with `setAdd`/`setHas`.
* The empty sentinels `''`/`undefined`/`null` for the user-rank field are
  modelled as `Option Int = none`; the AI-score field is modelled by the
  `AIRank` type whose `num n` constructor stands for any JS value that
  `parseInt` turns into the integer `n`, `empty` for `''`/`undefined`/`null`,
  and `nonNum` for any other value (for which `parseInt` yields `NaN`).
* `Date.now()` and `Math.random()` are ambient effects: every function that
  uses them takes the current time (`now : Nat`) or a stream of raw 32-bit
  random values (`r : Nat`, meaning `Math.random() = (r % 2^32) / 2^32`)
  as an explicit argument.
* In-place mutation of a caller-owned array is modelled by returning the
  array's post-call contents alongside the function's result.
* `localStorage` is modelled by passing the stored value in and the new
  stored value out of the persistence operations.
-/

namespace Haystack

/-- A JS value stored verbatim (used for the `score` argument, which the
engine never inspects or validates). -/
inductive JSVal where
  | num (n : Int)
  | str (s : String)
  | boolean (b : Bool)
  | nullV
  | undefV
deriving DecidableEq, Repr

/-- The AI-score field of a record, classified by what `parseInt` does to
it: `empty` is the `''`/`undefined`/`null` sentinel, `num n` any value that
parses to the integer `n`, `nonNum` any other (non-empty, `NaN`-parsing)
value. -/
inductive AIRank where
  | empty
  | num (n : Int)
  | nonNum
deriving DecidableEq, Repr

/-- `parseInt` on an AI-score field value: `NaN` is modelled as `none`
(note `parseInt('')` is also `NaN`, but the code tests emptiness first). -/
def parseIntJS : AIRank → Option Int
  | .empty => none
  | .num n => some n
  | .nonNum => none

/-- `aiRank === '' || aiRank === undefined || aiRank === null`. -/
def aiIsEmpty : AIRank → Bool
  | .empty => true
  | _ => false

/-- A candidate record (the engine only reads these fields).  `gridPos`
models the `gridRow`/`gridCol` properties, which the source always writes
together (`none` = both `undefined`). -/
structure Candidate where
  ID_xA : String
  Node_xA : String := ""
  Group_xA : String := ""
  Rank_xB : Option Int := none
  AI_Rank_xB : AIRank := .empty
  Root1_xB : Option String := none
  Root2_xB : Option String := none
  Root3_xB : Option String := none
  Class1_xB : Option String := none
  Class2_xB : Option String := none
  Class3_xB : Option String := none
  gridPos : Option (Nat × Nat) := none
deriving DecidableEq, Repr

/-! ## JS `Map`/`Set` helpers -/

variable {K V : Type} [DecidableEq K]

/-- `map.has(k)`. -/
def mapHas (m : List (K × V)) (k : K) : Bool :=
  m.any (fun e => e.1 = k)

/-- `map.get(k)` (first entry with the key; keys are unique by
construction, since `mapSet` never duplicates a key). -/
def mapGet (m : List (K × V)) (k : K) : Option V :=
  (m.find? (fun e => e.1 = k)).map Prod.snd

/-- `map.set(k, v)`: replaces in place when the key is present (JS keeps
the original insertion position), appends otherwise. -/
def mapSet (m : List (K × V)) (k : K) (v : V) : List (K × V) :=
  if mapHas m k then m.map (fun e => if e.1 = k then (k, v) else e)
  else m ++ [(k, v)]

/-- `map.delete(k)`. -/
def mapDelete (m : List (K × V)) (k : K) : List (K × V) :=
  m.filter (fun e => ¬ e.1 = k)

/-- `set.has(x)`. -/
def setHas (s : List K) (x : K) : Bool :=
  s.any (fun y => y = x)

/-- `set.add(x)`. -/
def setAdd (s : List K) (x : K) : List K :=
  if setHas s x then s else s ++ [x]

/-! ## Filter pipeline (`applyGroupFilter` … `filterCandidates`) -/

/-- `threshold` object `{ min, max }`; a field may be `undefined`. -/
structure Threshold where
  min : Option Int := none
  max : Option Int := none
deriving DecidableEq, Repr

/-- `applyGroupFilter`: keep candidates whose group is in the allowed set;
`null`/empty array is a no-op. -/
def applyGroupFilter (candidates : List Candidate) (groupFilter : Option (List String)) :
    List Candidate :=
  match groupFilter with
  | none => candidates
  | some gf =>
    if gf.length = 0 then candidates
    else candidates.filter (fun c => setHas gf c.Group_xA)

/-- `applyRankFilter`: `'unranked'` keeps empty-rank records, `'ranked'`
their complement, anything else is a no-op. -/
def applyRankFilter (candidates : List Candidate) (rankFilter : String) : List Candidate :=
  if rankFilter = "unranked" then
    candidates.filter (fun c => c.Rank_xB = none)
  else if rankFilter = "ranked" then
    candidates.filter (fun c => ¬ c.Rank_xB = none)
  else
    candidates

/-- The predicate of `applyAIScoreThreshold`'s `filter` callback. -/
def aiThresholdKeep (min max : Int) (c : Candidate) : Bool :=
  let isFullRange : Bool := min = 0 ∧ max = 100
  if aiIsEmpty c.AI_Rank_xB then
    isFullRange
  else
    match parseIntJS c.AI_Rank_xB with
    | none => false          -- isNaN(value)
    | some v => min ≤ v ∧ v ≤ max

/-- `applyAIScoreThreshold`. -/
def applyAIScoreThreshold (candidates : List Candidate) (threshold : Option Threshold) :
    List Candidate :=
  match threshold with
  | none => candidates
  | some thr =>
    let min := thr.min.getD 0
    let max := thr.max.getD 100
    candidates.filter (aiThresholdKeep min max)

/-! ## Selection policy (`mulberry32`, `seededShuffle`, `applySelectionMethod`)

All JS bitwise operators coerce to 32-bit; every intermediate value here is
congruent mod `2^32` to the JS one whether JS interprets it signed or
unsigned (`xor`, `+`, `Math.imul` all respect congruence mod `2^32`), and
the final `>>> 0` takes the value mod `2^32`, so the generator is modelled
over `Nat` with explicit `% 2^32`. -/

/-- `Math.imul(a, b)` as a value mod `2^32`. -/
def imul32 (a b : Nat) : Nat :=
  (a * b) % 4294967296

/-- One call of the closure returned by `mulberry32(seed)`: the closure
first advances its `seed` state by `0x6D2B79F5` (plain JS addition — the
state itself is not truncated), then mixes the state's low 32 bits.
Returns `(output, newSeed)` with `output < 2^32`; the JS closure returns
`output / 2^32 ∈ [0, 1)`. -/
def mulberry32Step (seed : Nat) : Nat × Nat :=
  let s := seed + 0x6D2B79F5
  let t := s % 4294967296
  let t := imul32 (t ^^^ (t >>> 15)) (t ||| 1)
  let t := t ^^^ ((t + imul32 (t ^^^ (t >>> 7)) (t ||| 61)) % 4294967296)
  ((t ^^^ (t >>> 14)) % 4294967296, s)

/-- `temp = a[i]; a[i] = a[j]; a[j] = temp` (indices produced by the
shuffle are always in bounds; out of bounds is modelled as a no-op). -/
def listSwap {α : Type} (l : List α) (i j : Nat) : List α :=
  match l[i]?, l[j]? with
  | some a, some b => (l.set i b).set j a
  | _, _ => l

/-- The `for (var i = length - 1; i > 0; i--)` loop of `seededShuffle`:
`j = Math.floor(random() * (i + 1))` is `r * (i + 1) / 2^32` in `Nat`
(exact for array lengths below `2^21`, where the double product is
exact). -/
def fisherYatesLoop {α : Type} (l : List α) (state : Nat) : Nat → List α × Nat
  | 0 => (l, state)
  | i + 1 =>
    let p := mulberry32Step state
    let j := p.1 * (i + 2) / 4294967296
    fisherYatesLoop (listSwap l (i + 1) j) p.2 i

/-- `seededShuffle(array, seed)`: `seed === null || seed === undefined`
falls back to `Date.now()` (the `now` argument).  The JS function shuffles
the array in place and returns it. -/
def seededShuffle {α : Type} (array : List α) (seed : Option Nat) (now : Nat) : List α :=
  let seed' := match seed with
    | none => now
    | some s => s
  (fisherYatesLoop array seed' (array.length - 1)).1

/-- Stable in-place sort (`Array.prototype.sort` is stable per the
ECMAScript spec); modelled as a stable insertion sort, whose output is the
unique stable ordering for the given comparator. `le a b` stands for
`comparator(a, b) <= 0`. -/
def jsSortInsert {α : Type} (le : α → α → Bool) (a : α) : List α → List α
  | [] => [a]
  | b :: l => if le a b then a :: b :: l else b :: jsSortInsert le a l

/-- See `jsSortInsert`. -/
def jsSort {α : Type} (le : α → α → Bool) : List α → List α
  | [] => []
  | a :: l => jsSortInsert le a (jsSort le l)

/-- `parseInt(c.AI_Rank_xB) || 0` — the sort key of the `top-ai` /
`bottom-ai` comparators (`NaN || 0` is `0`). -/
def aiSortKey (c : Candidate) : Int :=
  (parseIntJS c.AI_Rank_xB).getD 0

/-- Result of `applySelectionMethod`: the returned (new) array, plus the
caller's array contents after the call — the function starts with
`candidates.slice()`, so the in-place sort/shuffle happens on a copy and
the caller's array is left as it was. -/
structure SelResult where
  output : List Candidate
  inputAfter : List Candidate
deriving DecidableEq, Repr

/-- `applySelectionMethod(candidates, method, seed)`. -/
def applySelectionMethod (candidates : List Candidate) (method : String)
    (seed : Option Nat) (now : Nat) : SelResult :=
  -- var result = candidates.slice();
  if method = "top-ai" then
    ⟨jsSort (fun a b => aiSortKey b - aiSortKey a ≤ 0) candidates, candidates⟩
  else if method = "bottom-ai" then
    ⟨jsSort (fun a b => aiSortKey a - aiSortKey b ≤ 0) candidates, candidates⟩
  else if method = "random" then
    ⟨seededShuffle candidates seed now, candidates⟩
  else
    ⟨candidates, candidates⟩

/-! ## Session options and the main pipeline -/

/-- The merged (post-`Object.assign`) session options. -/
structure SessionOptions where
  selectionCount : Nat
  batchSize : Nat
  selectionMethod : String
  rankFilter : String
  aiScoreThreshold : Option Threshold
  groupFilter : Option (List String)
  randomSeed : Option Nat
deriving DecidableEq, Repr

/-- `GRID_SIZE` (js/config/constants.js). -/
def GRID_SIZE : Nat := 3

/-- `GRID_CAPACITY = GRID_SIZE * GRID_SIZE`. -/
def GRID_CAPACITY : Nat := GRID_SIZE * GRID_SIZE

/-- `DEFAULT_SESSION_OPTIONS`. -/
def DEFAULT_SESSION_OPTIONS : SessionOptions where
  selectionCount := 50
  batchSize := GRID_CAPACITY
  selectionMethod := "top-ai"
  rankFilter := "unranked"
  aiScoreThreshold := some { min := some 0, max := some 100 }
  groupFilter := none
  randomSeed := none

/-- A caller-supplied options object: a field is `none` when the caller's
object does not have that key (so `Object.assign` keeps the default). -/
structure SessionOptionsIn where
  selectionCount : Option Nat := none
  batchSize : Option Nat := none
  selectionMethod : Option String := none
  rankFilter : Option String := none
  aiScoreThreshold : Option (Option Threshold) := none
  groupFilter : Option (Option (List String)) := none
  randomSeed : Option (Option Nat) := none
deriving DecidableEq, Repr

/-- `Object.assign({}, DEFAULT_SESSION_OPTIONS, options || {})`. -/
def mergeOptions (o : SessionOptionsIn) : SessionOptions where
  selectionCount := o.selectionCount.getD DEFAULT_SESSION_OPTIONS.selectionCount
  batchSize := o.batchSize.getD DEFAULT_SESSION_OPTIONS.batchSize
  selectionMethod := o.selectionMethod.getD DEFAULT_SESSION_OPTIONS.selectionMethod
  rankFilter := o.rankFilter.getD DEFAULT_SESSION_OPTIONS.rankFilter
  aiScoreThreshold := o.aiScoreThreshold.getD DEFAULT_SESSION_OPTIONS.aiScoreThreshold
  groupFilter := o.groupFilter.getD DEFAULT_SESSION_OPTIONS.groupFilter
  randomSeed := o.randomSeed.getD DEFAULT_SESSION_OPTIONS.randomSeed

/-- JS `String.prototype.trim` whitespace (the classes relevant to this
data: space, tab, and line terminators). -/
def jsWhitespace (c : Char) : Bool :=
  c = ' ' ∨ c = '\t' ∨ c = '\n' ∨ c = '\r'

/-- `s.trim()`. -/
def jsTrim (s : String) : String :=
  String.mk (((s.data.dropWhile jsWhitespace).reverse.dropWhile jsWhitespace).reverse)

/-- `c.Node_xA && c.Node_xA.trim() !== ''` (step 1 of the pipeline). -/
def validNameKeep (c : Candidate) : Bool :=
  ¬ c.Node_xA = "" ∧ ¬ jsTrim c.Node_xA = ""

/-- Steps 1–4 of `filterCandidates` (shared verbatim with
`countEligibleCandidates`). -/
def filterStages (allCandidates : List Candidate) (options : SessionOptions) :
    List Candidate :=
  let candidates := allCandidates.filter validNameKeep
  let candidates := applyGroupFilter candidates options.groupFilter
  let candidates := applyRankFilter candidates options.rankFilter
  applyAIScoreThreshold candidates options.aiScoreThreshold

/-- Steps 1–5 of `filterCandidates`: the filtered *and ordered* eligible
set, before the selection-count truncation of step 6. -/
def orderedEligible (allCandidates : List Candidate) (options : SessionOptions)
    (now : Nat) : List Candidate :=
  (applySelectionMethod (filterStages allCandidates options)
    options.selectionMethod options.randomSeed now).output

/-- `filterCandidates(allCandidates, options)` — steps 1–5 followed by
step 6, `candidates.slice(0, Math.min(options.selectionCount,
candidates.length))`. -/
def filterCandidates (allCandidates : List Candidate) (options : SessionOptions)
    (now : Nat) : List Candidate :=
  let candidates := orderedEligible allCandidates options now
  candidates.take (min options.selectionCount candidates.length)

/-- `countEligibleCandidates(allCandidates, options)` — filters only, no
selection method, no count. -/
def countEligibleCandidates (allCandidates : List Candidate)
    (options : SessionOptions) : Nat :=
  (filterStages allCandidates options).length

/-! ## Grid allocator (`initGrid`, `assignGridCell`, `releaseGridCell`)

JS keys the `cells` map by the string `row + ',' + col`; for natural-number
coordinates that encoding is injective, so keys are modelled as pairs. -/

/-- Grid state object. -/
structure Grid where
  cells : List ((Nat × Nat) × String)
  availableCells : List (Nat × Nat)
  cellSizeW : Nat
  cellSizeH : Nat
  spacing : Nat
deriving DecidableEq, Repr

/-- The full coordinate space of the `GRID_SIZE × GRID_SIZE` grid, in the
row-major order `initGrid` builds it. -/
def fullCoords : List (Nat × Nat) :=
  (List.range GRID_SIZE).flatMap (fun row => (List.range GRID_SIZE).map (fun col => (row, col)))

/-- `initGrid()`: all cells free. -/
def initGrid : Grid where
  cells := []
  availableCells := fullCoords
  cellSizeW := 140
  cellSizeH := 100
  spacing := 10

/-- `assignGridCell(candidate, grid)`: picks
`idx = Math.floor(Math.random() * availableCells.length)` — with
`Math.random() = (r % 2^32) / 2^32` this is `r % 2^32 * length / 2^32`,
always `< length` — splices that cell out of `availableCells`, records the
assignment in `cells`, and returns the cell; `null` when no cell is free. -/
def assignGridCell (r : Nat) (candidate : Candidate) (grid : Grid) :
    Option (Nat × Nat) × Grid :=
  if grid.availableCells.length = 0 then (none, grid)
  else
    let idx := r % 4294967296 * grid.availableCells.length / 4294967296
    match grid.availableCells[idx]? with
    | none => (none, grid)   -- unreachable: idx < length
    | some cell =>
      (some cell,
       { grid with
         availableCells := grid.availableCells.eraseIdx idx
         cells := mapSet grid.cells cell candidate.ID_xA })

/-- `releaseGridCell(row, col, grid)`: occupied ⇒ move back to the free
pool; already free ⇒ no-op. -/
def releaseGridCell (row col : Nat) (grid : Grid) : Grid :=
  let key := (row, col)
  if mapHas grid.cells key then
    { grid with
      cells := mapDelete grid.cells key
      availableCells := grid.availableCells ++ [(row, col)] }
  else
    grid

/-! ## Session state machine -/

/-- An entry of the `scores` map.  `massScored` is set only by
`massScoreByAttribute` (the key is absent, i.e. `undefined`, for normally
scored records; modelled as `false`). -/
structure ScoreEntry where
  score : JSVal
  timestamp : Nat
  waveNumber : Nat
  massScored : Bool := false
deriving DecidableEq, Repr

/-- The persisted/resumed `config` sub-object of a session. -/
structure SessionConfig where
  selectionCount : Nat
  selectionMethod : String
  rankFilter : String
  aiScoreThreshold : Option Threshold
  groupFilter : Option (List String)
  randomSeed : Option Nat
deriving DecidableEq, Repr

/-- The session object. -/
structure Session where
  id : String
  selectedCandidates : List Candidate
  selectedIds : List String
  batchSize : Nat
  currentBatchIndex : Nat
  currentBatchCandidates : List Candidate
  scores : List (String × ScoreEntry)
  undecided : List String
  startedAt : Nat
  completedAt : Option Nat
  grid : Grid
  config : SessionConfig
deriving DecidableEq, Repr

/-- Result of `createSession`: either the structured "no eligible records"
error object or the new session. -/
inductive CreateResult where
  | err (error : String) (suggestions : List String)
  | ok (s : Session)
deriving DecidableEq, Repr

/-- The options `createSession` actually uses: `Object.assign` merging
with the defaults, then the random-seed backfill, which reproduces the JS
falsy test `!options.randomSeed` (`null`, `undefined` and `0` are all
falsy) with `Date.now()` as the `now` argument.  Persistence
(`clearSession` + `saveSession`) does not alter the returned session and
is modelled in the persistence section. -/
def effectiveOptions (optionsIn : SessionOptionsIn) (now : Nat) : SessionOptions :=
  let options := mergeOptions optionsIn
  if options.selectionMethod = "random" ∧
      (options.randomSeed = none ∨ options.randomSeed = some 0) then
    { options with randomSeed := some now }
  else options

/-- `createSession(allCandidates, options)` body (see the doc comment
above `effectiveOptions` for the option merging). -/
def createSession (allCandidates : List Candidate) (optionsIn : SessionOptionsIn)
    (now : Nat) : CreateResult :=
  let options := effectiveOptions optionsIn now
  let selected := filterCandidates allCandidates options now
  if selected.length = 0 then
    .err "No candidates match the current filters"
      ["Try expanding the AI score range",
       "Include ranked candidates (change rank filter to \x22all\x22)",
       "Select more groups"]
  else
    .ok
      { id := "eval-" ++ toString now
        selectedCandidates := selected
        selectedIds := selected.map (fun c => c.ID_xA)
        batchSize := options.batchSize
        currentBatchIndex := 0
        currentBatchCandidates := []
        scores := []
        undecided := []
        startedAt := now
        completedAt := none
        grid := initGrid
        config :=
          { selectionCount := options.selectionCount
            selectionMethod := options.selectionMethod
            rankFilter := options.rankFilter
            aiScoreThreshold := options.aiScoreThreshold
            groupFilter := options.groupFilter
            randomSeed := options.randomSeed } }

/-- Mutation result `{ success, evaluationComplete }` /
`{ success, error }`. -/
structure MutResult where
  success : Bool
  evaluationComplete : Bool := false
  error : Option String := none
deriving DecidableEq, Repr

/-- `scoreCandidate(session, candidateId, score)`.  `Date.now()` is `now`;
the `score` argument is stored verbatim, uninspected. -/
def scoreCandidate (now : Nat) (session : Session) (candidateId : String)
    (score : JSVal) : MutResult × Session :=
  if mapHas session.scores candidateId then
    ({ success := false, error := some "Already scored" }, session)
  else
    let session :=
      { session with
        scores := mapSet session.scores candidateId
          { score := score, timestamp := now
            waveNumber := session.currentBatchIndex + 1 } }
    let totalToEvaluate := session.selectedCandidates.length
    let totalProcessed := session.scores.length + session.undecided.length
    let evaluationComplete : Bool := totalProcessed ≥ totalToEvaluate
    let session :=
      if evaluationComplete then { session with completedAt := some now } else session
    ({ success := true, evaluationComplete := evaluationComplete }, session)

/-- `skipCandidate(session, candidateId)`. -/
def skipCandidate (now : Nat) (session : Session) (candidateId : String) :
    MutResult × Session :=
  let session := { session with undecided := setAdd session.undecided candidateId }
  let totalToEvaluate := session.selectedCandidates.length
  let totalProcessed := session.scores.length + session.undecided.length
  let evaluationComplete : Bool := totalProcessed ≥ totalToEvaluate
  let session :=
    if evaluationComplete then { session with completedAt := some now } else session
  ({ success := true, evaluationComplete := evaluationComplete }, session)

/-- `advanceToNextBatch(session)`: `totalBatches = Math.ceil(length /
batchSize)`; advance while `currentBatchIndex < totalBatches - 1`.  (For
`batchSize = 0` JS gets `Infinity`/`NaN` batches; the engine always passes
a positive batch size, and the case is modelled after the JS comparison:
with `length > 0` the index is below Infinity − 1, with `length = 0` the
NaN comparison is false.) -/
def advanceToNextBatch (session : Session) : Bool × Session :=
  let more : Bool :=
    if session.batchSize = 0 then
      session.selectedCandidates.length ≠ 0
    else
      session.currentBatchIndex <
        (session.selectedCandidates.length + session.batchSize - 1) / session.batchSize - 1
  if more then
    (true, { session with currentBatchIndex := session.currentBatchIndex + 1 })
  else
    (false, session)

/-- `getCurrentBatch(session)` (pure read). -/
def getCurrentBatch (session : Session) : List Candidate :=
  let start := session.currentBatchIndex * session.batchSize
  let batchCandidates :=
    (session.selectedCandidates.drop start).take session.batchSize
  batchCandidates.filter
    (fun c => ¬ mapHas session.scores c.ID_xA ∧ ¬ setHas session.undecided c.ID_xA)

/-- The `unprocessed.slice(0, batchSize).map(...)` loop of
`getNextBatchWithGridPositions`: each candidate gets a grid cell from
`assignGridCell` (consuming one `Math.random()` value from `rands`) and is
returned as a shallow copy annotated with the cell; when no cell is free
the copy carries no grid position. -/
def assignBatchLoop : List Candidate → Grid → List Nat → List Candidate × Grid
  | [], grid, _ => ([], grid)
  | c :: rest, grid, rands =>
    let r := rands.headD 0
    let (cell?, grid) := assignGridCell r c grid
    let c' := match cell? with
      | some cell => { c with gridPos := some cell }
      | none => c
    let (rest', grid') := assignBatchLoop rest grid rands.tail
    (c' :: rest', grid')

/-- `getNextBatchWithGridPositions(session)`.  `rands` is the stream of
`Math.random()` raw values consumed by the grid assignments. -/
def getNextBatchWithGridPositions (rands : List Nat) (session : Session) :
    List Candidate × Session :=
  let unprocessed := session.selectedCandidates.filter
    (fun c => ¬ mapHas session.scores c.ID_xA ∧ ¬ setHas session.undecided c.ID_xA)
  let (batch, grid) := assignBatchLoop (unprocessed.take session.batchSize) session.grid rands
  (batch, { session with currentBatchCandidates := batch, grid := grid })

/-- `removeFromBatch(session, candidateId)`: releases the departing
candidate's grid cell (only when it has one — the JS test is
`departing.gridRow !== undefined`; the source sets `gridRow`/`gridCol`
together) and filters it out of the current batch.  Returns the remaining
batch length. -/
def removeFromBatch (session : Session) (candidateId : String) : Nat × Session :=
  let departing := session.currentBatchCandidates.find? (fun c => c.ID_xA = candidateId)
  let grid := match departing with
    | some d =>
      match d.gridPos with
      | some (row, col) => releaseGridCell row col session.grid
      | none => session.grid
    | none => session.grid
  let batch := session.currentBatchCandidates.filter (fun c => ¬ c.ID_xA = candidateId)
  (batch.length, { session with grid := grid, currentBatchCandidates := batch })

/-- `replaceInGrid(session, candidateId)`: releases the departing
candidate's cell, removes it from the batch, then places the first
unprocessed, not-currently-displayed candidate at the freed coordinate
(note the source re-`set`s the key in `cells` without taking it back out of
`availableCells`). -/
def replaceInGrid (session : Session) (candidateId : String) :
    Option Candidate × Session :=
  match session.currentBatchCandidates.find? (fun c => c.ID_xA = candidateId) with
  | none => (none, session)
  | some departing =>
    match departing.gridPos with
    | none => (none, session)
    | some (row, col) =>
      let grid := releaseGridCell row col session.grid
      let batch := session.currentBatchCandidates.filter (fun c => ¬ c.ID_xA = candidateId)
      let currentIds := batch.map (fun c => c.ID_xA)
      let next := session.selectedCandidates.find?
        (fun c => ¬ mapHas session.scores c.ID_xA ∧ ¬ setHas session.undecided c.ID_xA ∧
          ¬ setHas currentIds c.ID_xA)
      match next with
      | some nxt =>
        let nextWithGrid := { nxt with gridPos := some (row, col) }
        let grid := { grid with cells := mapSet grid.cells (row, col) nextWithGrid.ID_xA }
        (some nextWithGrid,
         { session with grid := grid, currentBatchCandidates := batch ++ [nextWithGrid] })
      | none =>
        (none, { session with grid := grid, currentBatchCandidates := batch })

/-! ## Mass scoring -/

/-- The `matching` filter of `massScoreByAttribute`:
`attributeType === 'root'` compares the three root slots, anything else
the three class slots (strict `===` against the string value, so an
`undefined` slot never matches). -/
def massMatchKeep (attributeType attributeValue : String) (c : Candidate) : Bool :=
  if attributeType = "root" then
    c.Root1_xB = some attributeValue ∨ c.Root2_xB = some attributeValue ∨
      c.Root3_xB = some attributeValue
  else
    c.Class1_xB = some attributeValue ∨ c.Class2_xB = some attributeValue ∨
      c.Class3_xB = some attributeValue

/-- The candidates `massScoreByAttribute` scans: the full dataset when one
is supplied, else the session's selected candidates. -/
def massScoreCandidates (session : Session) (allNodes : Option (List Candidate)) :
    List Candidate :=
  match allNodes with
  | some nodes => nodes
  | none => session.selectedCandidates

/-- The records `massScoreByAttribute` will touch. -/
def massMatching (session : Session) (attributeType attributeValue : String)
    (allNodes : Option (List Candidate)) : List Candidate :=
  (massScoreCandidates session allNodes).filter (massMatchKeep attributeType attributeValue)

/-- Release every grid cell currently holding `id`
(the `grid.cells.forEach` loop; only the visited entry is ever deleted, so
iterating over the entry list present at the start is equivalent). -/
def releaseCellsFor (id : String) (grid : Grid) : Grid :=
  grid.cells.foldl
    (fun g e => if e.2 = id then releaseGridCell e.1.1 e.1.2 g else g) grid

/-- Return value of `massScoreByAttribute`. -/
structure MassResult where
  affected : Nat
  reScored : Nat
  scoredIds : List String
deriving DecidableEq, Repr

/-- `massScoreByAttribute(session, attributeType, attributeValue, score,
allNodes)`. -/
def massScoreByAttribute (now : Nat) (session : Session)
    (attributeType attributeValue : String) (score : JSVal)
    (allNodes : Option (List Candidate)) : MassResult × Session :=
  let matching := massMatching session attributeType attributeValue allNodes
  -- matching.forEach: count re-scores, force-set each score (bypassing the
  -- "already scored" check), collect the ids
  let reScored := (matching.filter (fun c => mapHas session.scores c.ID_xA)).length
  let scores := matching.foldl
    (fun m c => mapSet m c.ID_xA
      { score := score, timestamp := now
        waveNumber := session.currentBatchIndex + 1, massScored := true })
    session.scores
  let scoredIds := matching.map (fun c => c.ID_xA)
  let session := { session with scores := scores }
  -- release grid cells occupied by any of the scored candidates
  let grid := scoredIds.foldl (fun g id => releaseCellsFor id g) session.grid
  -- remove them from the current batch
  let batch := session.currentBatchCandidates.filter
    (fun c => ¬ setHas scoredIds c.ID_xA)
  let session := { session with grid := grid, currentBatchCandidates := batch }
  -- completion check
  let totalToEvaluate : Nat := session.selectedCandidates.length
  let totalProcessed : Nat := session.scores.length + session.undecided.length
  let session :=
    if totalProcessed ≥ totalToEvaluate then { session with completedAt := some now }
    else session
  ({ affected := matching.length, reScored := reScored, scoredIds := scoredIds }, session)

/-! ## Persistence adapter

`localStorage` under the single key `'haystack_eval_session'` is modelled
as an `Option PersistedSession` value passed in and out; JSON
(de)serialization faults and storage unavailability degrade to no-op/null
in the source and are outside the state space modelled here. -/

/-- One `{ id, gridRow, gridCol }` element of `currentBatchData`
(`gridPos = none` when the candidate had no cell, so the fields were
`undefined` and dropped by JSON). -/
structure PersistedBatchItem where
  id : String
  gridPos : Option (Nat × Nat)
deriving DecidableEq, Repr

/-- Serialized grid state. -/
structure PersistedGrid where
  cells : List ((Nat × Nat) × String)
  availableCells : List (Nat × Nat)
  cellSizeW : Nat
  cellSizeH : Nat
  spacing : Nat
deriving DecidableEq, Repr

/-- The serialized session record (§6 of the spec). -/
structure PersistedSession where
  id : String
  selectedIds : List String
  batchSize : Nat
  currentBatchIndex : Nat
  currentBatchData : List PersistedBatchItem
  scores : List (String × ScoreEntry)
  undecided : List String
  startedAt : Nat
  completedAt : Option Nat
  lastSaved : Nat
  grid : Option PersistedGrid
  config : SessionConfig
deriving DecidableEq, Repr

/-- `saveSession(session)`: the reduced representation written to the
slot. -/
def saveSession (now : Nat) (session : Session) : PersistedSession where
  id := session.id
  selectedIds := session.selectedIds
  batchSize := session.batchSize
  currentBatchIndex := session.currentBatchIndex
  currentBatchData := session.currentBatchCandidates.map
    (fun c => { id := c.ID_xA, gridPos := c.gridPos })
  scores := session.scores
  undecided := session.undecided
  startedAt := session.startedAt
  completedAt := session.completedAt
  lastSaved := now
  grid := some
    { cells := session.grid.cells
      availableCells := session.grid.availableCells
      cellSizeW := session.grid.cellSizeW
      cellSizeH := session.grid.cellSizeH
      spacing := session.grid.spacing }
  config :=
    { selectionCount := session.config.selectionCount
      selectionMethod := session.config.selectionMethod
      rankFilter := session.config.rankFilter
      aiScoreThreshold := session.config.aiScoreThreshold
      groupFilter := session.config.groupFilter
      randomSeed := session.config.randomSeed }

/-- `candidateMap.get(id)` where the map was built by
`allCandidates.forEach(c => candidateMap.set(c.ID_xA, c))` — for duplicate
ids the last record wins. -/
def lookupLast (allCandidates : List Candidate) (id : String) : Option Candidate :=
  allCandidates.reverse.find? (fun c => c.ID_xA = id)

/-- Replace the first element satisfying `p` with `v`. -/
def replaceFirst {α : Type} (p : α → Bool) (v : α) : List α → List α
  | [] => []
  | a :: l => if p a then v :: l else a :: replaceFirst p v l

/-- In-place mutation of the record object `candidateMap.get(id)` returns:
the *last* list element with that id is replaced by `v` (ids are unchanged
by the mutations performed here, so looking the object up by id in the
current list is equivalent to holding the original reference). -/
def mutateLast (ds : List Candidate) (id : String) (v : Candidate) : List Candidate :=
  (replaceFirst (fun c => c.ID_xA = id) v ds.reverse).reverse

/-- The `data.currentBatchData.forEach` loop of `loadSession`: looks each
persisted id up in the caller's dataset and, when found, writes the
persisted `gridRow`/`gridCol` directly onto that record object (mutating
the caller-owned record) and appends it to the reconstructed batch.
State is (dataset contents, batch so far). -/
def restoreBatchStep (acc : List Candidate × List Candidate)
    (item : PersistedBatchItem) : List Candidate × List Candidate :=
  match lookupLast acc.1 item.id with
  | some c =>
    let c' := { c with gridPos := item.gridPos }
    (mutateLast acc.1 item.id c', acc.2 ++ [c'])
  | none => acc

/-- See `restoreBatchStep`. -/
def restoreBatch (ds : List Candidate) (items : List PersistedBatchItem) :
    List Candidate × List Candidate :=
  items.foldl restoreBatchStep (ds, [])

/-- The outcome of `loadSession`: the returned session (or `null`), the
storage slot after the call (`clearSession` empties it on staleness), and
the caller's dataset contents after the call (the batch-restore loop
mutates records in it). -/
structure LoadOutcome where
  session : Option Session
  stored : Option PersistedSession
  dataset : List Candidate
deriving DecidableEq, Repr

/-- `loadSession(allCandidates)`.

* `if (data.completedAt) return null` — completed sessions never resume
  (`completedAt` is a `Date.now()` wall-clock value, hence nonzero, so JS
  truthiness is `isSome`).
* The staleness test `selectedCandidates.length < data.selectedIds.length
  * 0.9` is modelled exactly as `resolved * 10 < N * 9`: for every session
  size below `2^52` the double computation `N * 0.9` rounds to a value
  that compares identically. -/
def loadSession (stored : Option PersistedSession) (allCandidates : List Candidate) :
    LoadOutcome :=
  match stored with
  | none => { session := none, stored := none, dataset := allCandidates }
  | some data =>
    if data.completedAt.isSome then
      { session := none, stored := stored, dataset := allCandidates }
    else
      let selectedCandidates := data.selectedIds.filterMap (lookupLast allCandidates)
      if selectedCandidates.length * 10 < data.selectedIds.length * 9 then
        -- too many missing candidates: clearSession(); return null
        { session := none, stored := none, dataset := allCandidates }
      else
        let grid : Grid :=
          match data.grid with
          | some pg =>
            { cells := pg.cells
              availableCells := pg.availableCells
              cellSizeW := pg.cellSizeW
              cellSizeH := pg.cellSizeH
              spacing := pg.spacing }
          | none => initGrid
        let restored := restoreBatch allCandidates data.currentBatchData
        { session := some
            { id := data.id
              selectedCandidates := selectedCandidates
              selectedIds := data.selectedIds
              batchSize := data.batchSize
              currentBatchIndex := data.currentBatchIndex
              currentBatchCandidates := restored.2
              scores := data.scores
              undecided := data.undecided
              startedAt := data.startedAt
              completedAt := data.completedAt
              grid := grid
              config := data.config }
          stored := stored
          dataset := restored.1 }

/-! ## Operation sequences -/

/-- One caller-invoked grid-allocator call (`r` is the raw
`Math.random()` value of an `assign`). -/
inductive GridOp where
  | assign (r : Nat) (candidate : Candidate)
  | release (row col : Nat)
deriving DecidableEq, Repr

/-- Apply one grid op. -/
def stepGridOp (g : Grid) : GridOp → Grid
  | .assign r c => (assignGridCell r c g).2
  | .release row col => releaseGridCell row col g

/-- Run a sequence of grid ops from a grid. -/
def runGridOps (g : Grid) (ops : List GridOp) : Grid :=
  ops.foldl stepGridOp g

/-- The grid partition invariant: the keys of `cells` and the entries of
`availableCells`, taken together, are exactly the full coordinate space,
each coordinate once (no duplicate, no omission, no overlap). -/
def partitionInv (g : Grid) : Prop :=
  (g.cells.map Prod.fst ++ g.availableCells).Perm fullCoords

/-- One caller-invoked engine mutation on a session. -/
inductive EngineOp where
  | score (now : Nat) (id : String) (v : JSVal)
  | skip (now : Nat) (id : String)
  | massScore (now : Nat) (attributeType attributeValue : String) (v : JSVal)
      (allNodes : Option (List Candidate))
  | advance
  | nextBatch (rands : List Nat)
  | removeBatch (id : String)
  | replaceGrid (id : String)
deriving DecidableEq, Repr

/-- Apply one engine op (discarding the returned value). -/
def stepOp (s : Session) : EngineOp → Session
  | .score now id v => (scoreCandidate now s id v).2
  | .skip now id => (skipCandidate now s id).2
  | .massScore now ty val v nodes => (massScoreByAttribute now s ty val v nodes).2
  | .advance => (advanceToNextBatch s).2
  | .nextBatch rands => (getNextBatchWithGridPositions rands s).2
  | .removeBatch id => (removeFromBatch s id).2
  | .replaceGrid id => (replaceInGrid s id).2

/-- Run a sequence of engine ops. -/
def runOps (s : Session) (ops : List EngineOp) : Session :=
  ops.foldl stepOp s

/-- The score/undecided exclusivity invariant: no record id is
simultaneously a key of `scores` and a member of `undecided`. -/
def disjointSU (s : Session) : Prop :=
  ∀ id, mapHas s.scores id = true → setHas s.undecided id = false

/-- The guard under which an operation respects exclusivity: `score` is
not called on an id already skipped, `skip` not on an id already scored,
and `massScore` matches no already-skipped record.  (These hold in the UI
flow, which offers only unprocessed candidates for scoring/skipping.) -/
def opOk (s : Session) : EngineOp → Bool
  | .score _ id _ => ¬ setHas s.undecided id
  | .skip _ id => ¬ mapHas s.scores id
  | .massScore _ ty val _ nodes =>
    (massMatching s ty val nodes).all (fun c => ¬ setHas s.undecided c.ID_xA)
  | _ => true

/-- Every op of the sequence is guarded at the state where it runs. -/
def guardedFrom : Session → List EngineOp → Bool
  | _, [] => true
  | s, op :: ops => opOk s op && guardedFrom (stepOp s op) ops

/-! ## Concrete scenario data (used by counterexamples and witnesses) -/

/-- A minimal valid candidate. -/
def candA : Candidate := { ID_xA := "A", Node_xA := "a" }

/-- A second minimal valid candidate. -/
def candB : Candidate := { ID_xA := "B", Node_xA := "b" }

/-- Placeholder config for `sessionOf`'s unused error branch. -/
def fallbackConfig : SessionConfig where
  selectionCount := 0
  selectionMethod := ""
  rankFilter := ""
  aiScoreThreshold := none
  groupFilter := none
  randomSeed := none

/-- Placeholder session for `sessionOf`'s unused error branch. -/
def fallbackSession : Session where
  id := ""
  selectedCandidates := []
  selectedIds := []
  batchSize := 0
  currentBatchIndex := 0
  currentBatchCandidates := []
  scores := []
  undecided := []
  startedAt := 0
  completedAt := none
  grid := initGrid
  config := fallbackConfig

/-- Extract the session from a successful `createSession` result. -/
def sessionOf (r : CreateResult) : Session :=
  match r with
  | .ok s => s
  | .err _ _ => fallbackSession

/-- A fresh two-candidate session (default options). -/
def demoSession : Session := sessionOf (createSession [candA, candB] {} 0)

/-- `demoSession` after `skipCandidate(_, "A")`. -/
def demoAfterSkipA : Session := (skipCandidate 1 demoSession "A").2

/-- `demoAfterSkipA` after `scoreCandidate(_, "A", 2)` — the id `"A"` ends
up in `scores` *and* in `undecided`. -/
def demoBothA : Session := (scoreCandidate 2 demoAfterSkipA "A" (.num 2)).2

/-- A one-candidate session (default options). -/
def soloSession : Session := sessionOf (createSession [candA] {} 0)

/-- `soloSession` after its only candidate is scored: the session is
complete (`completedAt = some 1`). -/
def soloCompleted : Session := (scoreCandidate 1 soloSession "A" (.num 2)).2

/-- The `i`-th of the 51 valid candidates used to exhibit the default
selection-count truncation. -/
def mkCand (i : Nat) : Candidate :=
  { ID_xA := "c" ++ toString i, Node_xA := "n" ++ toString i }

/-- 51 valid candidates — one more than the default selection count. -/
def manyCands : List Candidate := (List.range 51).map mkCand

/-- A persisted, non-completed session whose single selected id `"A"` is
used by the staleness and load-mutation scenarios. -/
def demoPersisted : PersistedSession where
  id := "eval-0"
  selectedIds := ["A"]
  batchSize := 9
  currentBatchIndex := 0
  currentBatchData := [{ id := "A", gridPos := some (1, 2) }]
  scores := []
  undecided := []
  startedAt := 0
  completedAt := none
  lastSaved := 0
  grid := none
  config := fallbackConfig

/-! ## Helper lemmas about the JS map/set model -/

theorem mapHas_eq_mem_keys {K V : Type} [DecidableEq K] (m : List (K × V)) (k : K) :
    mapHas m k = true ↔ k ∈ m.map Prod.fst := by
  induction m with
  | nil => simp [mapHas]
  | cons e t ih =>
    simp only [mapHas, List.any_cons, Bool.or_eq_true, decide_eq_true_eq, List.map_cons,
      List.mem_cons] at ih ⊢
    rw [← ih]
    constructor
    · rintro (h | h)
      · exact Or.inl h.symm
      · exact Or.inr h
    · rintro (h | h)
      · exact Or.inl h.symm
      · exact Or.inr h

theorem mapHas_cons {K V : Type} [DecidableEq K] (e : K × V) (t : List (K × V)) (k : K) :
    mapHas (e :: t) k = (decide (e.1 = k) || mapHas t k) := rfl

theorem mapSet_cons_ne {K V : Type} [DecidableEq K] {e : K × V} {t : List (K × V)} {k : K}
    (v : V) (hek : ¬ e.1 = k) : mapSet (e :: t) k v = e :: mapSet t k v := by
  unfold mapSet
  rw [mapHas_cons]
  by_cases h : mapHas t k
  · simp [h, hek]
  · simp [h, hek]

theorem mapGet_cons_ne {K V : Type} [DecidableEq K] {e : K × V} {t : List (K × V)} {k : K}
    (hek : ¬ e.1 = k) : mapGet (e :: t) k = mapGet t k := by
  simp [mapGet, List.find?, hek]

theorem mapGet_mapSet_self {K V : Type} [DecidableEq K] (m : List (K × V)) (k : K) (v : V) :
    mapGet (mapSet m k v) k = some v := by
  induction m with
  | nil => simp [mapSet, mapHas, mapGet, List.find?]
  | cons e t ih =>
    by_cases hek : e.1 = k
    · have hhas : mapHas (e :: t) k = true := by simp [mapHas_cons, hek]
      simp only [mapSet, hhas, if_true, List.map_cons, hek, if_true]
      simp [mapGet, List.find?]
    · rw [mapSet_cons_ne v hek, mapGet_cons_ne hek]
      exact ih

theorem keys_mapSet {K V : Type} [DecidableEq K] (m : List (K × V)) (k : K) (v : V) :
    (mapSet m k v).map Prod.fst =
      if mapHas m k then m.map Prod.fst else m.map Prod.fst ++ [k] := by
  unfold mapSet
  split
  · rw [List.map_map]
    congr 1
    funext e
    by_cases hek : e.1 = k
    · simp [Function.comp, hek]
    · simp [Function.comp, hek]
  · simp

theorem mapHas_mapSet {K V : Type} [DecidableEq K] (m : List (K × V)) (k x : K) (v : V) :
    mapHas (mapSet m k v) x = (mapHas m x || decide (k = x)) := by
  by_cases hk : mapHas m k = true
  · have hkeys : (mapSet m k v).map Prod.fst = m.map Prod.fst := by
      rw [keys_mapSet, if_pos hk]
    by_cases hx : mapHas m x = true
    · have h1 : mapHas (mapSet m k v) x = true := by
        rw [mapHas_eq_mem_keys, hkeys, ← mapHas_eq_mem_keys]; exact hx
      simp [h1, hx]
    · have h2 : ¬ (k = x) := by rintro rfl; exact hx hk
      have h1 : mapHas (mapSet m k v) x = false := by
        rw [Bool.eq_false_iff]
        rw [Ne, mapHas_eq_mem_keys, hkeys, ← mapHas_eq_mem_keys]
        exact hx
      simp [h1, Bool.eq_false_iff.mpr hx, h2]
  · have hkeys : (mapSet m k v).map Prod.fst = m.map Prod.fst ++ [k] := by
      rw [keys_mapSet, if_neg hk]
    by_cases hkx : k = x
    · subst hkx
      have h1 : mapHas (mapSet m k v) k = true := by
        rw [mapHas_eq_mem_keys, hkeys]; simp
      simp [h1]
    · by_cases hx : mapHas m x = true
      · have h1 : mapHas (mapSet m k v) x = true := by
          rw [mapHas_eq_mem_keys, hkeys]
          rw [mapHas_eq_mem_keys] at hx
          simp [hx]
        simp [h1, hx]
      · have h1 : mapHas (mapSet m k v) x = false := by
          rw [Bool.eq_false_iff, Ne, mapHas_eq_mem_keys, hkeys]
          rw [mapHas_eq_mem_keys] at hx
          simp [hx, Ne.symm hkx]
        simp [h1, Bool.eq_false_iff.mpr hx, hkx]

theorem setHas_setAdd {K : Type} [DecidableEq K] (s : List K) (x y : K) :
    setHas (setAdd s x) y = (setHas s y || decide (x = y)) := by
  unfold setAdd
  split
  · rename_i h
    by_cases hxy : x = y
    · subst hxy; simp [h]
    · simp [hxy]
  · unfold setHas
    simp [List.any_append]

theorem setHas_nil {K : Type} [DecidableEq K] (y : K) : setHas ([] : List K) y = false := rfl

theorem mapHas_nil {K V : Type} [DecidableEq K] (y : K) :
    mapHas ([] : List (K × V)) y = false := rfl

/-! ## Effect lemmas for the session operations -/

theorem scoreCandidate_of_has {s : Session} {id : String} (now : Nat) (v : JSVal)
    (h : mapHas s.scores id = true) :
    scoreCandidate now s id v = ({ success := false, error := some "Already scored" }, s) := by
  simp [scoreCandidate, h]

theorem scoreCandidate_of_not_has {s : Session} {id : String} (now : Nat) (v : JSVal)
    (h : mapHas s.scores id = false) :
    (scoreCandidate now s id v).1.success = true ∧
      (scoreCandidate now s id v).2.scores =
        mapSet s.scores id
          { score := v, timestamp := now, waveNumber := s.currentBatchIndex + 1 } := by
  unfold scoreCandidate
  simp only [h, Bool.false_eq_true, if_false]
  dsimp only
  constructor
  · trivial
  · split <;> rfl

theorem scoreCandidate_undecided (now : Nat) (s : Session) (id : String) (v : JSVal) :
    (scoreCandidate now s id v).2.undecided = s.undecided := by
  unfold scoreCandidate
  split
  · rfl
  · dsimp only
    split <;> rfl

theorem skipCandidate_scores (now : Nat) (s : Session) (id : String) :
    (skipCandidate now s id).2.scores = s.scores := by
  unfold skipCandidate
  dsimp only
  split <;> rfl

theorem skipCandidate_undecided (now : Nat) (s : Session) (id : String) :
    (skipCandidate now s id).2.undecided = setAdd s.undecided id := by
  unfold skipCandidate
  dsimp only
  split <;> rfl

theorem scoreCandidate_completedAt (now : Nat) (s : Session) (id : String) (v : JSVal) :
    (scoreCandidate now s id v).2.completedAt = s.completedAt ∨
      (scoreCandidate now s id v).2.completedAt = some now := by
  unfold scoreCandidate
  split
  · exact Or.inl rfl
  · dsimp only
    split
    · exact Or.inr rfl
    · exact Or.inl rfl

theorem skipCandidate_completedAt (now : Nat) (s : Session) (id : String) :
    (skipCandidate now s id).2.completedAt = s.completedAt ∨
      (skipCandidate now s id).2.completedAt = some now := by
  unfold skipCandidate
  dsimp only
  split
  · exact Or.inr rfl
  · exact Or.inl rfl

/-! ## Claim theorems -/

/-- **C6** — `scoreCandidate` on an id already in `scores` returns a
failure result (`success: false`, no throw) and leaves the session — in
particular the previously stored score entry — unchanged; on an id not yet
in `scores` it records `{score, timestamp, waveNumber = currentBatchIndex
+ 1}` and returns success. -/
theorem scoreCandidate_rejects_rescore (now : Nat) (s : Session) (id : String) (v : JSVal) :
    (mapHas s.scores id = true →
      (scoreCandidate now s id v).1.success = false ∧
        (scoreCandidate now s id v).2 = s) ∧
    (mapHas s.scores id = false →
      (scoreCandidate now s id v).1.success = true ∧
        mapGet (scoreCandidate now s id v).2.scores id =
          some { score := v, timestamp := now,
                 waveNumber := s.currentBatchIndex + 1 }) := by
  constructor
  · intro h
    rw [scoreCandidate_of_has now v h]
    exact ⟨rfl, rfl⟩
  · intro h
    obtain ⟨h1, h2⟩ := scoreCandidate_of_not_has now v h
    refine ⟨h1, ?_⟩
    rw [h2, mapGet_mapSet_self]

/-- Witness for C6: in the fresh two-candidate demo session, scoring `"A"`
once succeeds and stores `{score := 2, timestamp := 1, waveNumber := 1}`;
scoring it again fails and leaves the session unchanged. -/
theorem scoreCandidate_rejects_rescore_witness :
    ((scoreCandidate 1 demoSession "A" (.num 2)).1.success = true ∧
      mapGet (scoreCandidate 1 demoSession "A" (.num 2)).2.scores "A" =
        some { score := .num 2, timestamp := 1, waveNumber := 1 }) ∧
    ((scoreCandidate 5 (scoreCandidate 1 demoSession "A" (.num 2)).2 "A" (.num 3)).1.success
        = false ∧
      (scoreCandidate 5 (scoreCandidate 1 demoSession "A" (.num 2)).2 "A" (.num 3)).2 =
        (scoreCandidate 1 demoSession "A" (.num 2)).2) := by
  constructor
  · exact (scoreCandidate_rejects_rescore 1 demoSession "A" (.num 2)).2 (by decide)
  · exact (scoreCandidate_rejects_rescore 5 (scoreCandidate 1 demoSession "A" (.num 2)).2
      "A" (.num 3)).1 (by decide)

/-- **C10** — for an id not yet scored, `scoreCandidate` accepts *any*
score value whatsoever (out-of-range numbers, strings, booleans, `null`,
`undefined`), returns `success: true`, and stores the value verbatim: the
engine performs no validation of the score argument. -/
theorem scoreCandidate_no_validation (now : Nat) (s : Session) (id : String) (v : JSVal)
    (h : mapHas s.scores id = false) :
    (scoreCandidate now s id v).1.success = true ∧
      mapGet (scoreCandidate now s id v).2.scores id =
        some { score := v, timestamp := now,
               waveNumber := s.currentBatchIndex + 1 } := by
  obtain ⟨h1, h2⟩ := scoreCandidate_of_not_has now v h
  refine ⟨h1, ?_⟩
  rw [h2, mapGet_mapSet_self]

/-- Witness for C10: the string `"not a number"` and the out-of-range
number `99` are both accepted and stored verbatim. -/
theorem scoreCandidate_no_validation_witness :
    ((scoreCandidate 1 demoSession "A" (.str "not a number")).1.success = true ∧
      mapGet (scoreCandidate 1 demoSession "A" (.str "not a number")).2.scores "A" =
        some { score := .str "not a number", timestamp := 1, waveNumber := 1 }) ∧
    ((scoreCandidate 1 demoSession "B" (.num 99)).1.success = true ∧
      mapGet (scoreCandidate 1 demoSession "B" (.num 99)).2.scores "B" =
        some { score := .num 99, timestamp := 1, waveNumber := 1 }) :=
  ⟨scoreCandidate_no_validation 1 demoSession "A" (.str "not a number") (by decide),
   scoreCandidate_no_validation 1 demoSession "B" (.num 99) (by decide)⟩

/-- **C2 counterexample** — a completed session (`completedAt = some 1`)
on which `skipCandidate` with a fresh id succeeds and changes `undecided`
membership, and `scoreCandidate` with a fresh id succeeds and changes
`scores` membership: post-completion calls are neither rejected nor
no-ops. -/
theorem completed_session_still_mutates :
    soloCompleted.completedAt = some 1 ∧
    ((skipCandidate 5 soloCompleted "B").1.success = true ∧
      setHas soloCompleted.undecided "B" = false ∧
      setHas (skipCandidate 5 soloCompleted "B").2.undecided "B" = true) ∧
    ((scoreCandidate 5 soloCompleted "B" (.num 0)).1.success = true ∧
      mapHas soloCompleted.scores "B" = false ∧
      mapHas (scoreCandidate 5 soloCompleted "B" (.num 0)).2.scores "B" = true) := by
  decide

/-- **C2 (amended)** — once `completedAt` is non-null, neither
`scoreCandidate` nor `skipCandidate` ever resets it to null (it stays
non-null, though its timestamp may be refreshed); however, such calls can
still change `scores`/`undecided` membership (see the counterexample), so
"completed" does not freeze the session. -/
theorem completedAt_never_reset (now : Nat) (s : Session) (id : String) (v : JSVal)
    (h : s.completedAt.isSome) :
    (scoreCandidate now s id v).2.completedAt.isSome ∧
      (skipCandidate now s id).2.completedAt.isSome := by
  constructor
  · rcases scoreCandidate_completedAt now s id v with h1 | h1 <;> rw [h1]
    · exact h
    · rfl
  · rcases skipCandidate_completedAt now s id with h1 | h1 <;> rw [h1]
    · exact h
    · rfl

/-- Witness for the amended C2: the completed one-candidate session keeps
a non-null `completedAt` through a further score and skip. -/
theorem completedAt_never_reset_witness :
    (scoreCandidate 5 soloCompleted "B" (.num 0)).2.completedAt.isSome ∧
      (skipCandidate 5 soloCompleted "B").2.completedAt.isSome :=
  completedAt_never_reset 5 soloCompleted "B" (.num 0) (by decide)

/-! ## Effect lemmas for mass scoring and the batch/grid operations -/

theorem massScore_undecided (now : Nat) (s : Session) (ty val : String) (v : JSVal)
    (nodes : Option (List Candidate)) :
    (massScoreByAttribute now s ty val v nodes).2.undecided = s.undecided := by
  unfold massScoreByAttribute
  dsimp only
  split <;> rfl

theorem massScore_scores (now : Nat) (s : Session) (ty val : String) (v : JSVal)
    (nodes : Option (List Candidate)) :
    (massScoreByAttribute now s ty val v nodes).2.scores =
      (massMatching s ty val nodes).foldl
        (fun m c => mapSet m c.ID_xA
          { score := v, timestamp := now
            waveNumber := s.currentBatchIndex + 1, massScored := true })
        s.scores := by
  unfold massScoreByAttribute
  dsimp only
  split <;> rfl

theorem mapHas_foldSet (l : List Candidate) (e : ScoreEntry)
    (m : List (String × ScoreEntry)) (x : String) :
    mapHas (l.foldl (fun m c => mapSet m c.ID_xA e) m) x =
      (mapHas m x || setHas (l.map (fun c => c.ID_xA)) x) := by
  induction l generalizing m with
  | nil => simp [setHas]
  | cons c t ih =>
    simp only [List.foldl_cons, List.map_cons]
    rw [ih, mapHas_mapSet]
    have : setHas (c.ID_xA :: t.map (fun c => c.ID_xA)) x =
        (decide (c.ID_xA = x) || setHas (t.map (fun c => c.ID_xA)) x) := rfl
    rw [this, ← Bool.or_assoc]

theorem advance_scores_undecided (s : Session) :
    (advanceToNextBatch s).2.scores = s.scores ∧
      (advanceToNextBatch s).2.undecided = s.undecided := by
  constructor <;>
    (unfold advanceToNextBatch; dsimp only; split <;> split <;> rfl)

theorem nextBatch_scores_undecided (rands : List Nat) (s : Session) :
    (getNextBatchWithGridPositions rands s).2.scores = s.scores ∧
      (getNextBatchWithGridPositions rands s).2.undecided = s.undecided := by
  unfold getNextBatchWithGridPositions
  dsimp only
  exact ⟨rfl, rfl⟩

theorem removeBatch_scores_undecided (s : Session) (id : String) :
    (removeFromBatch s id).2.scores = s.scores ∧
      (removeFromBatch s id).2.undecided = s.undecided := by
  unfold removeFromBatch
  exact ⟨rfl, rfl⟩

theorem replaceGrid_scores_undecided (s : Session) (id : String) :
    (replaceInGrid s id).2.scores = s.scores ∧
      (replaceInGrid s id).2.undecided = s.undecided := by
  unfold replaceInGrid
  split
  · exact ⟨rfl, rfl⟩
  · split
    · exact ⟨rfl, rfl⟩
    · dsimp only
      split
      · exact ⟨rfl, rfl⟩
      · exact ⟨rfl, rfl⟩

/-- A fresh `createSession` session has empty `scores` and `undecided`. -/
theorem createSession_ok_empty {cands : List Candidate} {opts : SessionOptionsIn}
    {now : Nat} {s : Session} (h : createSession cands opts now = .ok s) :
    s.scores = [] ∧ s.undecided = [] := by
  unfold createSession at h
  dsimp only at h
  split at h
  · simp at h
  · injection h with h'
    subst h'
    exact ⟨rfl, rfl⟩

/-- One guarded operation preserves score/undecided exclusivity. -/
theorem disjoint_step (s : Session) (op : EngineOp) (hd : disjointSU s)
    (hok : opOk s op = true) : disjointSU (stepOp s op) := by
  cases op with
  | score now id v =>
    by_cases hhas : mapHas s.scores id = true
    · show disjointSU (scoreCandidate now s id v).2
      rw [scoreCandidate_of_has now v hhas]
      exact hd
    · intro x hx
      have hu := scoreCandidate_undecided now s id v
      have hs := (scoreCandidate_of_not_has now v (Bool.eq_false_iff.mpr hhas)).2
      show setHas (scoreCandidate now s id v).2.undecided x = false
      rw [hu]
      rw [show (stepOp s (.score now id v)).scores = (scoreCandidate now s id v).2.scores
        from rfl, hs, mapHas_mapSet, Bool.or_eq_true] at hx
      rcases hx with hx | hx
      · exact hd x hx
      · simp only [decide_eq_true_eq] at hx
        subst hx
        simpa [opOk] using hok
  | skip now id =>
    intro x hx
    have hs := skipCandidate_scores now s id
    have hu := skipCandidate_undecided now s id
    rw [show (stepOp s (.skip now id)).scores = (skipCandidate now s id).2.scores
      from rfl, hs] at hx
    show setHas (skipCandidate now s id).2.undecided x = false
    rw [hu, setHas_setAdd, Bool.or_eq_false_iff]
    refine ⟨hd x hx, ?_⟩
    simp only [decide_eq_false_iff_not]
    rintro rfl
    have hok2 : ¬ mapHas s.scores id = true := by simpa [opOk] using hok
    exact hok2 hx
  | massScore now ty val v nodes =>
    intro x hx
    have hu := massScore_undecided now s ty val v nodes
    have hs := massScore_scores now s ty val v nodes
    rw [show (stepOp s (.massScore now ty val v nodes)).scores =
      (massScoreByAttribute now s ty val v nodes).2.scores from rfl, hs,
      mapHas_foldSet, Bool.or_eq_true] at hx
    show setHas (massScoreByAttribute now s ty val v nodes).2.undecided x = false
    rw [hu]
    rcases hx with hx | hx
    · exact hd x hx
    · simp only [setHas, List.any_eq_true, decide_eq_true_eq] at hx
      obtain ⟨z, hz, rfl⟩ := hx
      obtain ⟨c, hc, rfl⟩ := List.mem_map.mp hz
      simp only [opOk, List.all_eq_true] at hok
      simpa using hok c hc
  | advance =>
    intro x hx
    rw [show (stepOp s .advance).scores = (advanceToNextBatch s).2.scores from rfl,
      (advance_scores_undecided s).1] at hx
    show setHas (advanceToNextBatch s).2.undecided x = false
    rw [(advance_scores_undecided s).2]
    exact hd x hx
  | nextBatch rands =>
    intro x hx
    rw [show (stepOp s (.nextBatch rands)).scores =
      (getNextBatchWithGridPositions rands s).2.scores from rfl,
      (nextBatch_scores_undecided rands s).1] at hx
    show setHas (getNextBatchWithGridPositions rands s).2.undecided x = false
    rw [(nextBatch_scores_undecided rands s).2]
    exact hd x hx
  | removeBatch id =>
    intro x hx
    rw [show (stepOp s (.removeBatch id)).scores = (removeFromBatch s id).2.scores from rfl,
      (removeBatch_scores_undecided s id).1] at hx
    show setHas (removeFromBatch s id).2.undecided x = false
    rw [(removeBatch_scores_undecided s id).2]
    exact hd x hx
  | replaceGrid id =>
    intro x hx
    rw [show (stepOp s (.replaceGrid id)).scores = (replaceInGrid s id).2.scores from rfl,
      (replaceGrid_scores_undecided s id).1] at hx
    show setHas (replaceInGrid s id).2.undecided x = false
    rw [(replaceGrid_scores_undecided s id).2]
    exact hd x hx

/-- Exclusivity is preserved along any guarded operation sequence. -/
theorem disjoint_run (ops : List EngineOp) (s : Session) (hd : disjointSU s)
    (hg : guardedFrom s ops = true) : disjointSU (runOps s ops) := by
  induction ops generalizing s with
  | nil => exact hd
  | cons op t ih =>
    simp only [guardedFrom, Bool.and_eq_true] at hg
    exact ih (stepOp s op) (disjoint_step s op hd hg.1) hg.2

/-- **C1 counterexample** — from a fresh two-candidate session, the engine
operation sequence `skipCandidate(_, "A")` then `scoreCandidate(_, "A", 2)`
leaves `"A"` in `scores` *and* in `undecided` simultaneously (the skip does
not mark `"A"` as scored, and the score call does not consult
`undecided`): the exclusivity invariant is violated at an observable
point. -/
theorem score_undecided_exclusive_counterexample :
    createSession [candA, candB] {} 0 = .ok demoSession ∧
      ¬ disjointSU (runOps demoSession [.skip 1 "A", .score 2 "A" (.num 2)]) := by
  constructor
  · decide
  · intro h
    exact absurd (h "A" (by decide)) (by decide)

/-- **C1 (amended)** — for every session produced by `createSession` and
every sequence of engine operations in which `scoreCandidate` is never
called on an id in `undecided`, `skipCandidate` never on an id in
`scores`, and `massScoreByAttribute` never matches an already-skipped
record (the guards under which the UI invokes them), the set of scored ids
and the undecided set stay disjoint at every observable point.  Without
those guards the invariant fails (see the counterexample): neither
`skipCandidate` nor the mass-score path consults the other collection. -/
theorem score_undecided_exclusive (cands : List Candidate) (opts : SessionOptionsIn)
    (now : Nat) (s : Session) (ops : List EngineOp)
    (hok : createSession cands opts now = .ok s)
    (hg : guardedFrom s ops = true) : disjointSU (runOps s ops) := by
  obtain ⟨hs, hu⟩ := createSession_ok_empty hok
  refine disjoint_run ops s ?_ hg
  intro x hx
  rw [hs] at hx
  exact absurd hx (by simp [mapHas])

/-- Witness for the amended C1: a guarded three-operation run (skip `"A"`,
score `"B"`, advance) from the fresh demo session keeps the two sets
disjoint. -/
theorem score_undecided_exclusive_witness :
    disjointSU (runOps demoSession [.skip 1 "A", .score 2 "B" (.num 3), .advance]) :=
  score_undecided_exclusive [candA, candB] {} 0 demoSession
    [.skip 1 "A", .score 2 "B" (.num 3), .advance] (by decide) (by decide)

/-- **C3 counterexample** — with an options object that does not specify a
selection count, 51 eligible candidates are truncated to 50 at session
creation: the default selection count is `50`, not unbounded/very large,
so the selected records are *not* the entire filtered-and-ordered eligible
set. -/
theorem default_count_truncates_counterexample :
    countEligibleCandidates manyCands (mergeOptions {}) = 51 ∧
      ({} : SessionOptionsIn).selectionCount = none ∧
      (sessionOf (createSession manyCands {} 0)).selectedCandidates.length = 50 := by
  decide

/-- **C3 (amended)** — `createSession`'s selected records are the
filtered-and-ordered eligible set truncated once, at session creation, to
`min(selectionCount, eligible length)`; the *default* selection count
(when the caller's options do not specify one) is `50`, not
unbounded/very large. -/
theorem selection_truncated_once (cands : List Candidate) (optsIn : SessionOptionsIn)
    (now : Nat) (s : Session) (h : createSession cands optsIn now = .ok s) :
    s.selectedCandidates =
      (orderedEligible cands (effectiveOptions optsIn now) now).take
        (min (effectiveOptions optsIn now).selectionCount
          (orderedEligible cands (effectiveOptions optsIn now) now).length) ∧
      (effectiveOptions optsIn now).selectionCount = optsIn.selectionCount.getD 50 := by
  constructor
  · unfold createSession at h
    dsimp only at h
    split at h
    · simp at h
    · injection h with h'
      subst h'
      rfl
  · unfold effectiveOptions
    dsimp only
    split <;> rfl

/-- Witness for the amended C3: the two-candidate demo session selects
`take (min 50 2)` of the ordered eligible set, and the default count is
50. -/
theorem selection_truncated_once_witness :
    (demoSession.selectedCandidates =
      (orderedEligible [candA, candB] (effectiveOptions {} 0) 0).take
        (min (effectiveOptions {} 0).selectionCount
          (orderedEligible [candA, candB] (effectiveOptions {} 0) 0).length) ∧
      (effectiveOptions {} 0).selectionCount = ({} : SessionOptionsIn).selectionCount.getD 50) :=
  selection_truncated_once [candA, candB] {} 0 demoSession (by decide)

/-- **C7** — the score-threshold stage keeps a record with an empty/unset
score iff the threshold is the full default range `(0, 100)`; keeps a
record whose score parses to the integer `v` iff `min ≤ v ≤ max`
(inclusive); and always excludes a record with a non-empty, non-numeric
score value. -/
theorem aiScoreThreshold_membership (candidates : List Candidate) (mn mx : Int)
    (c : Candidate) :
    c ∈ applyAIScoreThreshold candidates (some { min := some mn, max := some mx }) ↔
      c ∈ candidates ∧
        (match c.AI_Rank_xB with
         | .empty => mn = 0 ∧ mx = 100
         | .num v => mn ≤ v ∧ v ≤ mx
         | .nonNum => False) := by
  show c ∈ candidates.filter (aiThresholdKeep mn mx) ↔ _
  rw [List.mem_filter]
  cases h : c.AI_Rank_xB <;>
    simp [aiThresholdKeep, aiIsEmpty, parseIntJS, h]

/-! ## Permutation lemmas for the seeded shuffle -/

theorem cons_set_perm {α : Type} (t : List α) (k : Nat) (a b : α)
    (h : t[k]? = some b) : (b :: t.set k a).Perm (a :: t) := by
  induction k generalizing t with
  | zero =>
    cases t with
    | nil => simp at h
    | cons x t' =>
      have hx : x = b := by simpa using h
      subst hx
      show (x :: a :: t').Perm (a :: x :: t')
      exact List.Perm.swap a x t'
  | succ k ih =>
    cases t with
    | nil => simp at h
    | cons x t' =>
      simp only [List.getElem?_cons_succ] at h
      show (b :: x :: t'.set k a).Perm (a :: x :: t')
      have h1 : (b :: x :: t'.set k a).Perm (x :: b :: t'.set k a) :=
        List.Perm.swap x b _
      have h3 : (x :: b :: t'.set k a).Perm (x :: a :: t') := (ih t' h).cons x
      have h4 : (x :: a :: t').Perm (a :: x :: t') := List.Perm.swap a x t'
      exact (h1.trans h3).trans h4

theorem set_set_perm {α : Type} (l : List α) (i j : Nat) (a b : α)
    (hi : l[i]? = some a) (hj : l[j]? = some b) : ((l.set i b).set j a).Perm l := by
  induction i generalizing l j a b with
  | zero =>
    cases l with
    | nil => simp at hi
    | cons x t =>
      have hx : x = a := by simpa using hi
      subst hx
      cases j with
      | zero =>
        have hb : x = b := by simpa using hj
        subst hb
        show (x :: t).Perm (x :: t)
        exact List.Perm.refl _
      | succ k =>
        simp only [List.getElem?_cons_succ] at hj
        show (b :: t.set k x).Perm (x :: t)
        exact cons_set_perm t k x b hj
  | succ m ih =>
    cases l with
    | nil => simp at hi
    | cons x t =>
      simp only [List.getElem?_cons_succ] at hi
      cases j with
      | zero =>
        have hx : x = b := by simpa using hj
        subst hx
        show (a :: t.set m x).Perm (x :: t)
        exact cons_set_perm t m x a hi
      | succ k =>
        simp only [List.getElem?_cons_succ] at hj
        show (x :: (t.set m b).set k a).Perm (x :: t)
        exact (ih t k a b hi hj).cons x

theorem listSwap_perm {α : Type} (l : List α) (i j : Nat) : (listSwap l i j).Perm l := by
  unfold listSwap
  split
  · rename_i a b hi hj
    exact set_set_perm l i j a b hi hj
  · exact List.Perm.refl l

theorem fisherYatesLoop_perm {α : Type} (i : Nat) (l : List α) (st : Nat) :
    (fisherYatesLoop l st i).1.Perm l := by
  induction i generalizing l st with
  | zero => exact List.Perm.refl l
  | succ i ih =>
    unfold fisherYatesLoop
    dsimp only
    exact (ih _ _).trans (listSwap_perm l (i + 1) _)

theorem seededShuffle_perm {α : Type} (l : List α) (seed : Option Nat) (now : Nat) :
    (seededShuffle l seed now).Perm l := by
  unfold seededShuffle
  dsimp only
  split <;> exact fisherYatesLoop_perm _ l _

/-- **C8** — with the `'random'` method and an explicit seed `S`,
`applySelectionMethod` is deterministic in the seed: two calls (at
different wall-clock instants `now₁`, `now₂`) return the same permutation
of the already-filtered collection `R`, the call leaves the caller's
array `R` itself unreordered (the function shuffles a `slice()` copy),
and the output is a permutation of `R`. -/
theorem random_selection_reproducible (R : List Candidate) (S now₁ now₂ : Nat) :
    applySelectionMethod R "random" (some S) now₁ =
        applySelectionMethod R "random" (some S) now₂ ∧
      (applySelectionMethod R "random" (some S) now₁).inputAfter = R ∧
      (applySelectionMethod R "random" (some S) now₁).output.Perm R := by
  refine ⟨rfl, rfl, ?_⟩
  show (seededShuffle R (some S) now₁).Perm R
  exact seededShuffle_perm R (some S) now₁

/-! ## Grid partition lemmas -/

theorem fullCoords_nodup : fullCoords.Nodup := by decide

theorem perm_cons_getElem_eraseIdx {α : Type} (l : List α) (idx : Nat) (a : α)
    (h : l[idx]? = some a) : l.Perm (a :: l.eraseIdx idx) := by
  induction l generalizing idx with
  | nil => simp at h
  | cons x t ih =>
    cases idx with
    | zero =>
      have hx : x = a := by simpa using h
      subst hx
      exact List.Perm.refl _
    | succ i =>
      simp only [List.getElem?_cons_succ] at h
      show (x :: t).Perm (a :: x :: t.eraseIdx i)
      have h1 : (x :: t).Perm (x :: (a :: t.eraseIdx i)) := (ih i h).cons x
      exact h1.trans (List.Perm.swap a x _)

theorem keys_mapDelete {K V : Type} [DecidableEq K] (m : List (K × V)) (k : K) :
    (mapDelete m k).map Prod.fst = (m.map Prod.fst).filter (fun x => ¬ x = k) := by
  induction m with
  | nil => rfl
  | cons e t ih =>
    by_cases h : e.1 = k <;>
      simp [mapDelete, List.filter_cons, h, ih] <;>
      simpa [mapDelete] using ih

theorem nodup_perm_cons_filter {α : Type} [DecidableEq α] (l : List α) (a : α)
    (hnd : l.Nodup) (ha : a ∈ l) :
    l.Perm (a :: l.filter (fun x => ¬ x = a)) := by
  induction l with
  | nil => simp at ha
  | cons x t ih =>
    by_cases hxa : x = a
    · subst hxa
      have hnotin : x ∉ t := (List.nodup_cons.mp hnd).1
      have hfilter : t.filter (fun y => ¬ y = x) = t := by
        apply List.filter_eq_self.mpr
        intro y hy
        simp only [decide_eq_true_eq]
        rintro rfl
        exact hnotin hy
      simp only [List.filter_cons, decide_eq_true_eq]
      rw [if_neg (by simp)]
      rw [hfilter]
    · have hat : a ∈ t := by
        rcases List.mem_cons.mp ha with h | h
        · exact absurd h.symm hxa
        · exact h
      have hndt : t.Nodup := (List.nodup_cons.mp hnd).2
      have hkeep : (x :: t).filter (fun y => ¬ y = a) =
          x :: t.filter (fun y => ¬ y = a) := by
        simp only [List.filter_cons, decide_eq_true_eq]
        rw [if_pos (by simpa using hxa)]
      rw [hkeep]
      have h1 : (x :: t).Perm (x :: (a :: t.filter (fun y => ¬ y = a))) :=
        (ih hndt hat).cons x
      exact h1.trans (List.Perm.swap a x _)

/-- One `assign`/`release` call preserves the partition invariant. -/
theorem partitionInv_step (g : Grid) (op : GridOp) (h : partitionInv g) :
    partitionInv (stepGridOp g op) := by
  have hnodup : (g.cells.map Prod.fst ++ g.availableCells).Nodup :=
    h.nodup_iff.mpr fullCoords_nodup
  cases op with
  | assign r c =>
    show partitionInv (assignGridCell r c g).2
    unfold assignGridCell
    by_cases h0 : g.availableCells.length = 0
    · simp only [h0, if_pos rfl]
      exact h
    · have hlen : 0 < g.availableCells.length := Nat.pos_of_ne_zero h0
      have hmod : r % 4294967296 < 4294967296 := Nat.mod_lt _ (by norm_num)
      have hidx : r % 4294967296 * g.availableCells.length / 4294967296 <
          g.availableCells.length := by
        apply Nat.div_lt_of_lt_mul
        exact (Nat.mul_lt_mul_right hlen).mpr hmod
      have hcell := List.getElem?_eq_getElem hidx
      simp only [if_neg h0, hcell]
      set cell := g.availableCells[r % 4294967296 * g.availableCells.length / 4294967296]
        with hcelldef
      have hmem : cell ∈ g.availableCells := g.availableCells.getElem_mem hidx
      have hnotkey : ¬ cell ∈ g.cells.map Prod.fst := by
        intro hk
        rcases List.nodup_append.mp hnodup with ⟨-, -, hdisj⟩
        exact hdisj hk hmem
      have hhas : mapHas g.cells cell = false := by
        rw [Bool.eq_false_iff, Ne, mapHas_eq_mem_keys]
        exact hnotkey
      show partitionInv
        { g with availableCells := g.availableCells.eraseIdx _,
                 cells := mapSet g.cells cell c.ID_xA }
      unfold partitionInv
      have hkeys : (mapSet g.cells cell c.ID_xA).map Prod.fst =
          g.cells.map Prod.fst ++ [cell] := by
        rw [keys_mapSet, if_neg (by rw [hhas]; exact Bool.false_ne_true)]
      rw [hkeys]
      have hav : g.availableCells.Perm
          (cell :: g.availableCells.eraseIdx
            (r % 4294967296 * g.availableCells.length / 4294967296)) :=
        perm_cons_getElem_eraseIdx _ _ _ hcell
      have step1 : (g.cells.map Prod.fst ++ [cell] ++
          g.availableCells.eraseIdx
            (r % 4294967296 * g.availableCells.length / 4294967296)).Perm
          (g.cells.map Prod.fst ++ g.availableCells) := by
        rw [List.append_assoc]
        exact List.Perm.append_left _ hav.symm
      exact step1.trans h
  | release row col =>
    show partitionInv (releaseGridCell row col g)
    unfold releaseGridCell
    dsimp only
    by_cases hk : mapHas g.cells (row, col) = true
    · rw [if_pos hk]
      unfold partitionInv
      have hmem : (row, col) ∈ g.cells.map Prod.fst := (mapHas_eq_mem_keys _ _).mp hk
      have hknodup : (g.cells.map Prod.fst).Nodup := (List.nodup_append.mp hnodup).1
      have hperm : (g.cells.map Prod.fst).Perm
          ((row, col) :: (g.cells.map Prod.fst).filter (fun x => ¬ x = (row, col))) :=
        nodup_perm_cons_filter _ _ hknodup hmem
      show ((mapDelete g.cells (row, col)).map Prod.fst ++
        (g.availableCells ++ [(row, col)])).Perm fullCoords
      rw [keys_mapDelete]
      have e1 : (((g.cells.map Prod.fst).filter (fun x => ¬ x = (row, col)) ++
          g.availableCells) ++ [(row, col)]).Perm
          ([(row, col)] ++ ((g.cells.map Prod.fst).filter (fun x => ¬ x = (row, col)) ++
            g.availableCells)) := List.perm_append_comm
      have e2 : (((row, col) :: (g.cells.map Prod.fst).filter (fun x => ¬ x = (row, col))) ++
          g.availableCells).Perm (g.cells.map Prod.fst ++ g.availableCells) :=
        List.Perm.append_right g.availableCells hperm.symm
      rw [← List.append_assoc]
      exact (e1.trans e2).trans h
    · rw [if_neg hk]
      exact h

/-- The invariant propagates along any op sequence. -/
theorem partitionInv_run (ops : List GridOp) (g : Grid) (h : partitionInv g) :
    partitionInv (runGridOps g ops) := by
  induction ops generalizing g with
  | nil => exact h
  | cons op t ih => exact ih (stepGridOp g op) (partitionInv_step g op h)

/-- **C4** — for the grid produced by `initGrid` and every finite sequence
of `assign`/`release` calls, the keys of `cells` and the entries of
`availableCells` together contain every coordinate of the
`GRID_SIZE × GRID_SIZE` coordinate space exactly once: no coordinate is
missing, duplicated within either collection, or present in both. -/
theorem grid_partition_invariant (ops : List GridOp) :
    partitionInv (runGridOps initGrid ops) := by
  apply partitionInv_run
  unfold partitionInv initGrid
  exact List.Perm.refl _

/-- **C5** — for a persisted non-completed session with `N` selected ids,
if the caller's current dataset resolves fewer than `0.9 * N` of them
(`resolved * 10 < N * 9` exactly), `loadSession` clears the stored session
and returns null instead of a partly reconstructed session; the
caller's dataset is untouched. -/
theorem stale_session_discarded (d : PersistedSession) (cands : List Candidate)
    (hnc : d.completedAt = none)
    (hstale : (d.selectedIds.filterMap (lookupLast cands)).length * 10 <
      d.selectedIds.length * 9) :
    loadSession (some d) cands =
      { session := none, stored := none, dataset := cands } := by
  unfold loadSession
  dsimp only
  rw [hnc]
  simp only [Option.isSome_none, Bool.false_eq_true, if_false]
  rw [if_pos hstale]

/-- Witness for C5: `demoPersisted` has one selected id and the empty
dataset resolves none of them (`0 * 10 < 1 * 9`), so the load discards the
stored session and returns null. -/
theorem stale_session_discarded_witness :
    loadSession (some demoPersisted) [] =
      { session := none, stored := none, dataset := ([] : List Candidate) } :=
  stale_session_discarded demoPersisted [] (by decide) (by decide)

/-! ## Lemmas for the load-time batch restoration -/

theorem find?_replaceFirst_self {α : Type} (p : α → Bool) (v : α) (l : List α)
    (hv : p v = true) :
    List.find? p (replaceFirst p v l) = (List.find? p l).map (fun _ => v) := by
  induction l with
  | nil => rfl
  | cons a t ih =>
    by_cases ha : p a = true
    · simp only [replaceFirst, ha, if_true, List.find?_cons_of_pos _ hv,
        List.find?_cons_of_pos _ ha]
      rfl
    · simp only [replaceFirst, ha, Bool.false_eq_true, if_false,
        List.find?_cons_of_neg _ ha]
      exact ih

theorem find?_replaceFirst_other {α : Type} (p q : α → Bool) (v : α) (l : List α)
    (hqv : q v = false) (hpq : ∀ c, p c = true → q c = false) :
    List.find? q (replaceFirst p v l) = List.find? q l := by
  induction l with
  | nil => rfl
  | cons a t ih =>
    by_cases ha : p a = true
    · have hqa : ¬ q a = true := by rw [hpq a ha]; exact Bool.false_ne_true
      have hqv2 : ¬ q v = true := by rw [hqv]; exact Bool.false_ne_true
      simp only [replaceFirst, ha, if_true, List.find?_cons_of_neg _ hqv2,
        List.find?_cons_of_neg _ hqa]
    · simp only [replaceFirst, ha, Bool.false_eq_true, if_false]
      by_cases hqa : q a = true
      · simp only [List.find?_cons_of_pos _ hqa]
      · simp only [List.find?_cons_of_neg _ hqa]
        exact ih

theorem lookupLast_mutateLast_self (ds : List Candidate) (id : String) (v : Candidate)
    (hv : v.ID_xA = id) :
    lookupLast (mutateLast ds id v) id = (lookupLast ds id).map (fun _ => v) := by
  unfold lookupLast mutateLast
  rw [List.reverse_reverse]
  exact find?_replaceFirst_self _ v ds.reverse (by simp [hv])

theorem lookupLast_mutateLast_ne (ds : List Candidate) (id : String) (v : Candidate)
    (x : String) (hv : v.ID_xA = id) (hx : ¬ x = id) :
    lookupLast (mutateLast ds id v) x = lookupLast ds x := by
  unfold lookupLast mutateLast
  rw [List.reverse_reverse]
  apply find?_replaceFirst_other
  · simp [hv]
    exact fun h => hx h.symm
  · intro c hc
    simp only [decide_eq_true_eq] at hc
    simp [hc]
    exact fun h => hx h.symm

theorem lookupLast_id {ds : List Candidate} {x : String} {c : Candidate}
    (h : lookupLast ds x = some c) : c.ID_xA = x := by
  unfold lookupLast at h
  have := List.find?_some h
  simpa using this

/-- Effect of one batch-restore step on a lookup. -/
theorem restoreBatchStep_lookup (ds b : List Candidate) (j : PersistedBatchItem)
    (x : String) (u : Candidate) (hu : lookupLast ds x = some u) :
    lookupLast (restoreBatchStep (ds, b) j).1 x =
      some (if j.id = x then { u with gridPos := j.gridPos } else u) := by
  unfold restoreBatchStep
  cases hj : lookupLast ds j.id with
  | none =>
    have hne : ¬ j.id = x := by
      rintro rfl
      rw [hu] at hj
      exact Option.noConfusion hj
    simp only [hne, if_false]
    exact hu
  | some c =>
    have hcid : c.ID_xA = j.id := lookupLast_id hj
    by_cases hx : j.id = x
    · subst hx
      rw [hu] at hj
      injection hj with hj'
      subst hj'
      simp only [eq_self_iff_true, if_true]
      rw [lookupLast_mutateLast_self ds j.id
        { u with gridPos := j.gridPos } hcid, hu]
      rfl
    · simp only [hx, if_false]
      rw [lookupLast_mutateLast_ne ds j.id
        { c with gridPos := j.gridPos } x hcid (fun h => hx h.symm)]
      exact hu

/-- Effect of the whole batch-restore fold on a lookup. -/
theorem restoreBatch_lookup (items : List PersistedBatchItem) (ds b : List Candidate)
    (x : String) (u : Candidate) (gp : Option (Nat × Nat))
    (hgp : ∀ j ∈ items, j.id = x → j.gridPos = gp)
    (hu : lookupLast ds x = some u) :
    lookupLast (items.foldl restoreBatchStep (ds, b)).1 x =
      some (if ∃ j ∈ items, j.id = x then { u with gridPos := gp } else u) := by
  induction items generalizing ds b u with
  | nil => simpa using hu
  | cons j t ih =>
    rw [List.foldl_cons]
    have hstep := restoreBatchStep_lookup ds b j x u hu
    have hgpt : ∀ j' ∈ t, j'.id = x → j'.gridPos = gp := fun j' hj' =>
      hgp j' (List.mem_cons_of_mem j hj')
    by_cases hjx : j.id = x
    · have hjgp : j.gridPos = gp := hgp j (List.mem_cons_self j t) hjx
      rw [if_pos hjx, hjgp] at hstep
      have := ih (restoreBatchStep (ds, b) j).1
        (restoreBatchStep (ds, b) j).2 { u with gridPos := gp } hgpt (by
          rw [← hstep])
      rw [show ((restoreBatchStep (ds, b) j).1, (restoreBatchStep (ds, b) j).2) =
        restoreBatchStep (ds, b) j from rfl] at this
      rw [this]
      have hex : ∃ j' ∈ j :: t, j'.id = x := ⟨j, List.mem_cons_self j t, hjx⟩
      rw [if_pos hex]
      by_cases hext : ∃ j' ∈ t, j'.id = x
      · rw [if_pos hext]
      · rw [if_neg hext]
    · rw [if_neg hjx] at hstep
      have := ih (restoreBatchStep (ds, b) j).1
        (restoreBatchStep (ds, b) j).2 u hgpt (by rw [← hstep])
      rw [show ((restoreBatchStep (ds, b) j).1, (restoreBatchStep (ds, b) j).2) =
        restoreBatchStep (ds, b) j from rfl] at this
      rw [this]
      have hiff : (∃ j' ∈ j :: t, j'.id = x) ↔ (∃ j' ∈ t, j'.id = x) := by
        constructor
        · rintro ⟨j', hj', hjx'⟩
          rcases List.mem_cons.mp hj' with rfl | hj'
          · exact absurd hjx' hjx
          · exact ⟨j', hj', hjx'⟩
        · rintro ⟨j', hj', hjx'⟩
          exact ⟨j', List.mem_cons_of_mem j hj', hjx'⟩
      by_cases hext : ∃ j' ∈ t, j'.id = x
      · rw [if_pos hext, if_pos (hiff.mpr hext)]
      · rw [if_neg hext, if_neg (fun h => hext (hiff.mp h))]

/-- **C9** — when a persisted, non-completed, non-stale session's
`currentBatchData` has an entry whose id resolves against the
caller-supplied dataset, `loadSession` writes the persisted
`gridRow`/`gridCol` directly onto the matching record of the *caller's*
dataset (the dataset after the call holds the mutated record, not an
untouched original): the engine mutates the externally-owned record
rather than a copy.  (The hypothesis on duplicate-id entries makes the
final written value well defined; the source always writes distinct batch
ids.) -/
theorem load_mutates_callers_records (d : PersistedSession) (cands : List Candidate)
    (item : PersistedBatchItem) (c : Candidate)
    (hnc : d.completedAt = none)
    (hfresh : ¬ ((d.selectedIds.filterMap (lookupLast cands)).length * 10 <
      d.selectedIds.length * 9))
    (hitem : item ∈ d.currentBatchData)
    (hgp : ∀ j ∈ d.currentBatchData, j.id = item.id → j.gridPos = item.gridPos)
    (hc : lookupLast cands item.id = some c) :
    lookupLast (loadSession (some d) cands).dataset item.id =
      some { c with gridPos := item.gridPos } := by
  unfold loadSession
  dsimp only
  rw [hnc]
  simp only [Option.isSome_none, Bool.false_eq_true, if_false]
  rw [if_neg hfresh]
  show lookupLast (restoreBatch cands d.currentBatchData).1 item.id = _
  unfold restoreBatch
  rw [restoreBatch_lookup d.currentBatchData cands [] item.id c item.gridPos hgp hc]
  rw [if_pos ⟨item, hitem, rfl⟩]

/-- Witness for C9: loading `demoPersisted` (batch entry `"A"` at cell
`(1,2)`) against the dataset `[candA]` leaves the caller's dataset holding
`candA` with `gridPos = some (1, 2)`. -/
theorem load_mutates_callers_records_witness :
    lookupLast (loadSession (some demoPersisted) [candA]).dataset "A" =
      some { candA with gridPos := some (1, 2) } :=
  load_mutates_callers_records demoPersisted [candA]
    { id := "A", gridPos := some (1, 2) } candA
    (by decide) (by decide) (by decide) (by decide) (by decide)


end Haystack
